import Mathlib

/-!
Verification development for the TheRefactorShop product-filtering repository.

The repository contains a layered (DDD) implementation with validated value
objects (`Category`, `Price`), a `Product` entity, a criteria-based
`ProductFilter`, an in-memory repository and a filtering service, plus a
"flat" implementation (plain strings and numbers, no validation) of the same
filtering machinery.  The layered code is embedded in namespace `Shop`, the
flat code in namespace `Shop.Flat`.

JavaScript numbers are modelled as rationals (`ℚ`); a possibly-NaN/infinite
JS number argument is modelled by the `JSNumber` type, and a possibly
null/undefined argument by `Option`.  Constructors that may `throw` are
embedded as `Except`-valued `create` functions; constructors that contain no
validation are total.
-/

namespace Shop

/-- Models a raw JavaScript `number` argument: NaN, the two infinities, or a
finite value (finite values are modelled as rationals). -/
inductive JSNumber where
  | nan
  | posInf
  | negInf
  | finite (q : ℚ)
deriving DecidableEq

/-- Models JavaScript `String.prototype.trim`: removes whitespace from both
ends of the string. -/
def jsTrim (s : String) : String :=
  String.mk (((s.data.dropWhile Char.isWhitespace).reverse.dropWhile Char.isWhitespace).reverse)

/-- The two distinct failure messages of the `Price` constructor:
"Price must be a valid number" and "Price cannot be negative". -/
inductive PriceError where
  | invalidValue
  | negativeValue
deriving DecidableEq

/-- Embeds `Price` (src/src/domain/value-objects/price.ts): a validated
wrapper around a finite non-negative number. -/
structure Price where
  value : ℚ
deriving DecidableEq

/-- Embeds the `Price` constructor (price.ts lines 4-14).  The argument is
`Option JSNumber`: `none` models a null/undefined argument; `nan`, `posInf`
and `negInf` fail the `isNaN`/`isFinite` checks. -/
def Price.create (value : Option JSNumber) : Except PriceError Price :=
  match value with
  | none => .error .invalidValue
  | some .nan => .error .invalidValue
  | some .posInf => .error .invalidValue
  | some .negInf => .error .invalidValue
  | some (.finite q) =>
    if q < 0 then .error .negativeValue
    else .ok ⟨q⟩

/-- Embeds `Price.greaterThan`. -/
def Price.greaterThan (a b : Price) : Bool := decide (b.value < a.value)

/-- Embeds `Price.greaterThanOrEqual`. -/
def Price.greaterThanOrEqual (a b : Price) : Bool := decide (b.value ≤ a.value)

/-- Embeds `Price.lessThan`. -/
def Price.lessThan (a b : Price) : Bool := decide (a.value < b.value)

/-- Embeds `Price.lessThanOrEqual`. -/
def Price.lessThanOrEqual (a b : Price) : Bool := decide (a.value ≤ b.value)

/-- Embeds `Price.equals` (the non-null case; the source returns false for a
null/undefined argument, which a total Lean argument cannot be). -/
def Price.equalsPrice (a b : Price) : Bool := a.value == b.value

/-- The fixed category vocabulary `Category.VALID_CATEGORIES`
(src/src/domain/value-objects/category.ts lines 2-10), in declared order. -/
def validCategories : List String :=
  ["food", "clothes", "toiletries", "free-shipping", "new", "offer", "limited-edition"]

/-- The two distinct failure messages of the `Category` constructor:
"Category cannot be empty" and "Invalid category: ...". -/
inductive CategoryError where
  | empty
  | invalid
deriving DecidableEq

/-- Embeds `Category`: a validated wrapper around a vocabulary string. -/
structure Category where
  value : String
deriving DecidableEq

/-- Embeds the static `Category.isValid` (category.ts lines 42-48).  The
argument is `Option String`: `none` models null/undefined input; the JS
falsiness test `!value` on a string is true exactly for the empty string.
The function is total, so it never throws. -/
def Category.isValid (value : Option String) : Bool :=
  match value with
  | none => false
  | some s =>
    if s = "" || jsTrim s = "" then false
    else validCategories.contains s

/-- Embeds the `Category` constructor (category.ts lines 14-24). -/
def Category.create (value : String) : Except CategoryError Category :=
  if value = "" || jsTrim value = "" then .error .empty
  else if Category.isValid (some value) then .ok ⟨value⟩
  else .error .invalid

/-- Embeds `Category.equals` (the non-null case). -/
def Category.equalsCat (a b : Category) : Bool := a.value == b.value

/-- The three distinct failure messages of the `Product` constructor. -/
inductive ProductError where
  | emptyId
  | emptyName
  | noCategories
deriving DecidableEq

/-- Embeds the `Product` entity (src/src/domain/entities/product.ts). -/
structure Product where
  id : String
  name : String
  price : Price
  categories : List Category
  hasStock : Bool
deriving DecidableEq

/-- Embeds the `Product` constructor (product.ts lines 11-35): id, name and
category checks run in exactly this order. -/
def Product.create (id name : String) (price : Price) (categories : List Category)
    (hasStock : Bool) : Except ProductError Product :=
  if id = "" || jsTrim id = "" then .error .emptyId
  else if name = "" || jsTrim name = "" then .error .emptyName
  else if categories.isEmpty then .error .noCategories
  else .ok ⟨id, name, price, categories, hasStock⟩

/-- Embeds `Product.belongsToCategory` (product.ts lines 57-59). -/
def Product.belongsToCategory (p : Product) (category : Category) : Bool :=
  p.categories.any (fun productCategory => productCategory.equalsCat category)

/-- Embeds `Product.isInPriceRange` (product.ts lines 61-71): an absent bound
imposes no constraint, a present bound is inclusive. -/
def Product.isInPriceRange (p : Product) (minPrice maxPrice : Option Price) : Bool :=
  (minPrice.all fun m => !(p.price.lessThan m)) &&
  (maxPrice.all fun m => !(p.price.greaterThan m))

/-- Modelled from the spec: the `Category`/`Price`-typed criterion classes
(`CategoryFilterCriterion`, `PriceFilterCriterion`, `StockFilterCriterion`
imported by `FilterCriterion.ts` from `domain/criteria/filter-criterion.interface`)
are not under src/; spec section 3 defines the three variants, and they mirror
the flat string-typed classes of FilterCriterion.ts lines 7-35. -/
inductive FilterCriterion where
  | category (categories : List Category)
  | price (minPrice maxPrice : Option Price)
  | stock (hasStock : Bool)
deriving DecidableEq

/-- Modelled from the spec: criterion evaluation (spec section 3
`FilterCriterion` variants), mirroring the flat `matches` implementations
(FilterCriterion.ts lines 10-34) with structural `Category` equality and the
entity predicates `belongsToCategory`/`isInPriceRange`. -/
def FilterCriterion.matches : FilterCriterion → Product → Bool
  | .category categories, product =>
    if categories.isEmpty then true
    else categories.any (fun category => product.belongsToCategory category)
  | .price minPrice maxPrice, product => product.isInPriceRange minPrice maxPrice
  | .stock hasStock, product => product.hasStock == hasStock

/-- The failure message of the `ProductFilter` constructors:
"Min price cannot be greater than max price". -/
inductive FilterError where
  | invalidRange
deriving DecidableEq

/-- Embeds the criteria-variant `ProductFilter` (FilterCriterion.ts lines
40-146): the stored filter parameters.  The derived `_criteria` list is built
deterministically from these fields by `_buildCriteria` and is embedded as
the function `buildCriteria`. -/
structure ProductFilter where
  categories : List Category
  minPrice : Option Price
  maxPrice : Option Price
  hasStock : Option Bool
deriving DecidableEq

/-- Embeds the criteria-variant `ProductFilter` constructor (FilterCriterion.ts
lines 47-63): throws when both bounds are present and min > max. -/
def ProductFilter.create (categories : List Category) (minPrice maxPrice : Option Price)
    (hasStock : Option Bool) : Except FilterError ProductFilter :=
  if (match minPrice, maxPrice with
      | some m, some M => m.greaterThan M
      | _, _ => false) then
    .error .invalidRange
  else
    .ok ⟨categories, minPrice, maxPrice, hasStock⟩

/-- Embeds `ProductFilter._buildCriteria` (FilterCriterion.ts lines 89-105):
each dimension contributes a criterion only when it carries a constraint. -/
def ProductFilter.buildCriteria (f : ProductFilter) : List FilterCriterion :=
  (if f.categories.length > 0 then [FilterCriterion.category f.categories] else []) ++
  (if f.minPrice.isSome || f.maxPrice.isSome
   then [FilterCriterion.price f.minPrice f.maxPrice] else []) ++
  (match f.hasStock with
   | some b => [FilterCriterion.stock b]
   | none => [])

/-- Embeds `ProductFilter.matches` (FilterCriterion.ts lines 85-87): every
derived criterion must match. -/
def ProductFilter.matches (f : ProductFilter) (product : Product) : Bool :=
  f.buildCriteria.all (fun criterion => criterion.matches product)

/-- Embeds `ProductFilter.isEmpty` (FilterCriterion.ts lines 81-83): tests the
stored fields (a present `Price` object is always truthy in JS). -/
def ProductFilter.isEmpty (f : ProductFilter) : Bool :=
  f.categories.isEmpty && f.minPrice.isNone && f.maxPrice.isNone && f.hasStock.isNone

/-- Embeds `ProductFilter.hasCategoryFilter` (FilterCriterion.ts lines 107-109). -/
def ProductFilter.hasCategoryFilter (f : ProductFilter) : Bool :=
  !f.categories.isEmpty

/-- Embeds `ProductFilter.hasPriceFilter` (FilterCriterion.ts lines 111-113). -/
def ProductFilter.hasPriceFilter (f : ProductFilter) : Bool :=
  f.minPrice.isSome || f.maxPrice.isSome

/-- Embeds `ProductFilter.hasStockFilter` (FilterCriterion.ts lines 115-117). -/
def ProductFilter.hasStockFilter (f : ProductFilter) : Bool :=
  f.hasStock.isSome

/-- Embeds `ProductFilter.matchesCategory` (FilterCriterion.ts lines 119-125). -/
def ProductFilter.matchesCategory (f : ProductFilter) (category : Category) : Bool :=
  if !f.hasCategoryFilter then true
  else f.categories.any (fun filterCategory => filterCategory.equalsCat category)

/-- Embeds `ProductFilter.matchesPrice` (FilterCriterion.ts lines 127-141). -/
def ProductFilter.matchesPrice (f : ProductFilter) (price : Price) : Bool :=
  if !f.hasPriceFilter then true
  else if f.minPrice.any (fun m => price.lessThan m) then false
  else if f.maxPrice.any (fun m => price.greaterThan m) then false
  else true

/-- Embeds the criteria-variant `ProductFilterBuilder` state (FilterCriterion.ts
lines 148-152). -/
structure ProductFilterBuilder where
  categories : List Category
  minPrice : Option Price
  maxPrice : Option Price
  hasStock : Option Bool
deriving DecidableEq

/-- The fresh builder returned by `ProductFilter.builder()`. -/
def ProductFilterBuilder.init : ProductFilterBuilder := ⟨[], none, none, none⟩

/-- Embeds `ProductFilterBuilder.withCategories`: replaces the whole list. -/
def ProductFilterBuilder.withCategories (b : ProductFilterBuilder)
    (categories : List Category) : ProductFilterBuilder :=
  ⟨categories, b.minPrice, b.maxPrice, b.hasStock⟩

/-- Embeds `ProductFilterBuilder.withMinPrice`. -/
def ProductFilterBuilder.withMinPrice (b : ProductFilterBuilder)
    (minPrice : Price) : ProductFilterBuilder :=
  ⟨b.categories, some minPrice, b.maxPrice, b.hasStock⟩

/-- Embeds `ProductFilterBuilder.withMaxPrice`. -/
def ProductFilterBuilder.withMaxPrice (b : ProductFilterBuilder)
    (maxPrice : Price) : ProductFilterBuilder :=
  ⟨b.categories, b.minPrice, some maxPrice, b.hasStock⟩

/-- Embeds `ProductFilterBuilder.withPriceRange`: sets both bounds. -/
def ProductFilterBuilder.withPriceRange (b : ProductFilterBuilder)
    (minPrice maxPrice : Price) : ProductFilterBuilder :=
  ⟨b.categories, some minPrice, some maxPrice, b.hasStock⟩

/-- Embeds `ProductFilterBuilder.withStockFilter`. -/
def ProductFilterBuilder.withStockFilter (b : ProductFilterBuilder)
    (hasStock : Bool) : ProductFilterBuilder :=
  ⟨b.categories, b.minPrice, b.maxPrice, some hasStock⟩

/-- Embeds `ProductFilterBuilder.withInStockOnly`. -/
def ProductFilterBuilder.withInStockOnly (b : ProductFilterBuilder) : ProductFilterBuilder :=
  ⟨b.categories, b.minPrice, b.maxPrice, some true⟩

/-- Embeds `ProductFilterBuilder.withOutOfStockOnly`. -/
def ProductFilterBuilder.withOutOfStockOnly (b : ProductFilterBuilder) : ProductFilterBuilder :=
  ⟨b.categories, b.minPrice, b.maxPrice, some false⟩

/-- Embeds `ProductFilterBuilder.build` (FilterCriterion.ts lines 190-192):
delegates to the `ProductFilter` constructor, so construction failures
surface at build time. -/
def ProductFilterBuilder.build (b : ProductFilterBuilder) : Except FilterError ProductFilter :=
  ProductFilter.create b.categories b.minPrice b.maxPrice b.hasStock

end Shop

namespace Shop.Simple

/-- Embeds the layered `ProductFilter`
(src/src/domain/value-objects/product-filter.ts): this variant carries no
stock dimension and no unified `matches`. -/
structure ProductFilter where
  categories : List Shop.Category
  minPrice : Option Shop.Price
  maxPrice : Option Shop.Price
deriving DecidableEq

/-- Embeds the layered `ProductFilter` constructor (product-filter.ts lines
9-21): the identical min/max range check. -/
def ProductFilter.create (categories : List Shop.Category)
    (minPrice maxPrice : Option Shop.Price) : Except Shop.FilterError ProductFilter :=
  if (match minPrice, maxPrice with
      | some m, some M => m.greaterThan M
      | _, _ => false) then
    .error .invalidRange
  else
    .ok ⟨categories, minPrice, maxPrice⟩

/-- Embeds the layered `ProductFilterBuilder` state (product-filter.ts lines
76-79). -/
structure ProductFilterBuilder where
  categories : List Shop.Category
  minPrice : Option Shop.Price
  maxPrice : Option Shop.Price
deriving DecidableEq

/-- Embeds the layered `ProductFilterBuilder.build` (product-filter.ts lines
102-104): delegates to the constructor. -/
def ProductFilterBuilder.build (b : ProductFilterBuilder) :
    Except Shop.FilterError ProductFilter :=
  ProductFilter.create b.categories b.minPrice b.maxPrice

end Shop.Simple

namespace Shop

/-- Embeds the `findByFilter` per-product predicate (part_001 lines 263-279,
`InMemoryProductRepository.findByFilter`): the early-return chain checks the
category dimension, then the price dimension, and never consults the stock
dimension.  The filter argument is the criteria-variant `ProductFilter`,
which carries all four introspection methods the repository calls. -/
def InMemoryProductRepository.keepsProduct (filter : ProductFilter) (product : Product) : Bool :=
  if filter.hasCategoryFilter &&
      !(product.categories.any (fun category => filter.matchesCategory category)) then
    false
  else if filter.hasPriceFilter && !(filter.matchesPrice product.price) then
    false
  else
    true

/-- Embeds `InMemoryProductRepository.findByFilter` (part_001 lines 262-281):
`Array.prototype.filter` keeps the stored order. -/
def InMemoryProductRepository.findByFilter (products : List Product)
    (filter : ProductFilter) : List Product :=
  products.filter (fun product => InMemoryProductRepository.keepsProduct filter product)

/-- Embeds `InMemoryProductRepository.save` (part_001 lines 291-299):
`findIndex` locates the first product with the same id; a hit is replaced in
place, a miss is appended. -/
def InMemoryProductRepository.save (products : List Product) (product : Product) :
    List Product :=
  match products.findIdx? (fun p => p.id == product.id) with
  | some index => products.set index product
  | none => products ++ [product]

/-- Embeds the comparator inside `ProductFilterService.sortByStock`
(product-filter-service.ts lines 35-46): 0 when the stock flags agree, -1
when `a` has stock and `b` does not, 1 otherwise. -/
def stockCompare (a b : Product) : Int :=
  if a.hasStock == b.hasStock then 0
  else if a.hasStock && !b.hasStock then -1
  else 1

/-- Models `Array.prototype.sort` with a comparator: ECMAScript requires the
sort to be stable, and this insertion sort places `x` before the first `y`
with `cmp x y <= 0`, which is stable because `x` originates earlier in the
input than everything it is inserted into. -/
def jsSortInsert (cmp : α → α → Int) (x : α) : List α → List α
  | [] => [x]
  | y :: ys => if cmp x y ≤ 0 then x :: y :: ys else y :: jsSortInsert cmp x ys

/-- Models `Array.prototype.sort` with a comparator (stable). -/
def jsSort (cmp : α → α → Int) : List α → List α
  | [] => []
  | x :: xs => jsSortInsert cmp x (jsSort cmp xs)

/-- Embeds `ProductFilterService.sortByStock` (product-filter-service.ts lines
34-47): stable sort by the two-valued stock comparator. -/
def ProductFilterService.sortByStock (products : List Product) : List Product :=
  jsSort stockCompare products

/-- Embeds `ProductFilterService.filterProducts` (product-filter-service.ts
lines 11-14) composed with the in-memory repository: fetch the matching
products, then order them stock-first. -/
def ProductFilterService.filterProducts (products : List Product)
    (filter : ProductFilter) : List Product :=
  ProductFilterService.sortByStock (InMemoryProductRepository.findByFilter products filter)

end Shop

namespace Shop.Flat

/-- Embeds the flat `Product` (part_001 lines 308-330): plain strings and
numbers, and a constructor with no validation at all. -/
structure Product where
  id : String
  name : String
  price : ℚ
  categories : List String
  hasStock : Bool
deriving DecidableEq

/-- The flat `Product` constructor contains no checks and never throws; its
construction outcome is therefore always `ok`. -/
def Product.createE (id name : String) (price : ℚ) (categories : List String)
    (hasStock : Bool) : Except Shop.ProductError Product :=
  .ok ⟨id, name, price, categories, hasStock⟩

/-- Embeds the flat `Product.hasCategory` (part_001 lines 317-319). -/
def Product.hasCategory (p : Product) (category : String) : Bool :=
  p.categories.contains category

/-- Embeds the flat `Product.hasPriceInRange` (part_001 lines 321-329). -/
def Product.hasPriceInRange (p : Product) (minPrice maxPrice : Option ℚ) : Bool :=
  (minPrice.all fun m => !(decide (p.price < m))) &&
  (maxPrice.all fun m => !(decide (m < p.price)))

/-- Embeds the flat criterion classes (src/src/FilterCriterion.ts lines 7-35). -/
inductive FilterCriterion where
  | category (categories : List String)
  | price (minPrice maxPrice : Option ℚ)
  | stock (hasStock : Bool)
deriving DecidableEq

/-- Embeds the flat `matches` implementations (FilterCriterion.ts lines 10-34). -/
def FilterCriterion.matches : FilterCriterion → Product → Bool
  | .category categories, product =>
    if categories.isEmpty then true
    else categories.any (fun category => product.hasCategory category)
  | .price minPrice maxPrice, product => product.hasPriceInRange minPrice maxPrice
  | .stock hasStock, product => product.hasStock == hasStock

/-- Embeds the flat `ProductFilter` (part_001 lines 162-195): this variant
stores only the derived criteria list. -/
structure ProductFilter where
  criteria : List FilterCriterion
deriving DecidableEq

/-- Embeds the flat `ProductFilter` constructor (part_001 lines 165-182): it
pushes one criterion per constrained dimension and performs no validation
(in particular there is no min/max range check). -/
def ProductFilter.create (categories : List String) (minPrice maxPrice : Option ℚ)
    (hasStock : Option Bool) : ProductFilter :=
  ⟨(if categories.length > 0 then [FilterCriterion.category categories] else []) ++
   (if minPrice.isSome || maxPrice.isSome
    then [FilterCriterion.price minPrice maxPrice] else []) ++
   (match hasStock with
    | some b => [FilterCriterion.stock b]
    | none => [])⟩

/-- The flat `ProductFilter` constructor never throws; its construction
outcome is therefore always `ok`. -/
def ProductFilter.createE (categories : List String) (minPrice maxPrice : Option ℚ)
    (hasStock : Option Bool) : Except Shop.FilterError ProductFilter :=
  .ok (ProductFilter.create categories minPrice maxPrice hasStock)

/-- Embeds the flat `ProductFilter.matches` (part_001 lines 184-186). -/
def ProductFilter.matches (f : ProductFilter) (product : Product) : Bool :=
  f.criteria.all (fun criterion => criterion.matches product)

/-- Embeds the flat `ProductFilter.isEmpty` (part_001 lines 188-190). -/
def ProductFilter.isEmpty (f : ProductFilter) : Bool :=
  f.criteria.isEmpty

/-- Embeds the flat `ProductFilterBuilder` state (part_001 lines 197-201). -/
structure ProductFilterBuilder where
  categories : List String
  minPrice : Option ℚ
  maxPrice : Option ℚ
  hasStock : Option Bool
deriving DecidableEq

/-- The fresh builder returned by the flat `ProductFilter.builder()`. -/
def ProductFilterBuilder.init : ProductFilterBuilder := ⟨[], none, none, none⟩

/-- One fluent call on the flat builder (part_001 lines 203-242). -/
inductive BuilderCall where
  | withCategories (categories : List String)
  | withCategory (category : String)
  | withMinPrice (minPrice : ℚ)
  | withMaxPrice (maxPrice : ℚ)
  | withPriceRange (minPrice maxPrice : ℚ)
  | withStockFilter (hasStock : Bool)
  | withInStockOnly
  | withOutOfStockOnly
deriving DecidableEq

/-- Embeds the flat builder methods (part_001 lines 203-242): `withCategories`
replaces the whole list, `withCategory` appends one entry, every other
method overwrites its field and leaves the rest untouched. -/
def ProductFilterBuilder.applyCall (b : ProductFilterBuilder) :
    BuilderCall → ProductFilterBuilder
  | .withCategories categories => ⟨categories, b.minPrice, b.maxPrice, b.hasStock⟩
  | .withCategory category => ⟨b.categories ++ [category], b.minPrice, b.maxPrice, b.hasStock⟩
  | .withMinPrice minPrice => ⟨b.categories, some minPrice, b.maxPrice, b.hasStock⟩
  | .withMaxPrice maxPrice => ⟨b.categories, b.minPrice, some maxPrice, b.hasStock⟩
  | .withPriceRange minPrice maxPrice =>
    ⟨b.categories, some minPrice, some maxPrice, b.hasStock⟩
  | .withStockFilter hasStock => ⟨b.categories, b.minPrice, b.maxPrice, some hasStock⟩
  | .withInStockOnly => ⟨b.categories, b.minPrice, b.maxPrice, some true⟩
  | .withOutOfStockOnly => ⟨b.categories, b.minPrice, b.maxPrice, some false⟩

/-- Runs a sequence of fluent calls on a builder, left to right. -/
def ProductFilterBuilder.runCalls (b : ProductFilterBuilder) (calls : List BuilderCall) :
    ProductFilterBuilder :=
  calls.foldl ProductFilterBuilder.applyCall b

/-- Embeds the flat `ProductFilterBuilder.build` (part_001 lines 244-246):
delegates to the flat `ProductFilter` constructor. -/
def ProductFilterBuilder.build (b : ProductFilterBuilder) : ProductFilter :=
  ProductFilter.create b.categories b.minPrice b.maxPrice b.hasStock

end Shop.Flat

namespace Shop.Flat

/-- Classifies the builder calls that write the `minPrice` field. -/
def BuilderCall.setsMin : BuilderCall → Bool
  | .withMinPrice _ => true
  | .withPriceRange _ _ => true
  | _ => false

/-- Classifies the builder calls that write the `maxPrice` field. -/
def BuilderCall.setsMax : BuilderCall → Bool
  | .withMaxPrice _ => true
  | .withPriceRange _ _ => true
  | _ => false

/-- Classifies the builder calls that write the `hasStock` field. -/
def BuilderCall.setsStock : BuilderCall → Bool
  | .withStockFilter _ => true
  | .withInStockOnly => true
  | .withOutOfStockOnly => true
  | _ => false

end Shop.Flat


namespace Shop

lemma categoryCriteria_all_iff (cs : List Category) (p : Product) :
    ((if cs.length > 0 then [FilterCriterion.category cs] else []).all
        (fun criterion => criterion.matches p) = true) ↔
      (cs = [] ∨ ∃ c ∈ cs, ∃ pc ∈ p.categories, pc.value = c.value) := by
  cases cs with
  | nil => simp
  | cons c cs =>
    simp [FilterCriterion.matches, Product.belongsToCategory, Category.equalsCat,
      List.any_eq_true, beq_iff_eq]

lemma priceCriteria_all_iff (mn mx : Option Price) (p : Product) :
    ((if mn.isSome || mx.isSome then [FilterCriterion.price mn mx] else []).all
        (fun criterion => criterion.matches p) = true) ↔
      ((∀ m, mn = some m → m.value ≤ p.price.value) ∧
       (∀ m, mx = some m → p.price.value ≤ m.value)) := by
  cases mn with
  | none =>
    cases mx with
    | none => simp
    | some M =>
      simp [FilterCriterion.matches, Product.isInPriceRange, Price.lessThan,
        Price.greaterThan, Option.all, not_lt]
  | some m =>
    cases mx with
    | none =>
      simp [FilterCriterion.matches, Product.isInPriceRange, Price.lessThan,
        Price.greaterThan, Option.all, not_lt]
    | some M =>
      simp [FilterCriterion.matches, Product.isInPriceRange, Price.lessThan,
        Price.greaterThan, Option.all, not_lt]

lemma stockCriteria_all_iff (st : Option Bool) (p : Product) :
    ((match st with
      | some b => [FilterCriterion.stock b]
      | none => ([] : List FilterCriterion)).all
        (fun criterion => criterion.matches p) = true) ↔
      (∀ b, st = some b → p.hasStock = b) := by
  cases st with
  | none => simp
  | some b => simp [FilterCriterion.matches]

lemma productFilter_create_ok {cs : List Category} {mn mx : Option Price} {st : Option Bool}
    {f : ProductFilter} (h : ProductFilter.create cs mn mx st = Except.ok f) :
    f = ⟨cs, mn, mx, st⟩ := by
  unfold ProductFilter.create at h
  split at h
  · cases h
  · cases h
    rfl

end Shop

/-- C1: for every successfully constructed criteria-variant ProductFilter and
every Product, `matches` is the AND across the three dimensions, with OR
semantics (structural equality) inside the category list, both price bounds
inclusive, and the stock dimension an equality test when set. -/
theorem c1_matches_characterization (cs : List Shop.Category)
    (mn mx : Option Shop.Price) (st : Option Bool) (f : Shop.ProductFilter)
    (p : Shop.Product) (h : Shop.ProductFilter.create cs mn mx st = Except.ok f) :
    (f.matches p = true ↔
      ((cs = [] ∨ ∃ c ∈ cs, ∃ pc ∈ p.categories, pc.value = c.value) ∧
       (∀ m, mn = some m → m.value ≤ p.price.value) ∧
       (∀ m, mx = some m → p.price.value ≤ m.value) ∧
       (∀ b, st = some b → p.hasStock = b))) := by
  rw [Shop.productFilter_create_ok h]
  rw [Shop.ProductFilter.matches, Shop.ProductFilter.buildCriteria]
  rw [List.all_append, List.all_append]
  simp only [Bool.and_eq_true]
  rw [Shop.categoryCriteria_all_iff, Shop.priceCriteria_all_iff, Shop.stockCriteria_all_iff]
  tauto

/-- Witness for C1 at a concrete filter and product. -/
theorem c1_matches_characterization_witness :
    (Shop.ProductFilter.matches ⟨[⟨"food"⟩], some ⟨1⟩, some ⟨2⟩, some true⟩
        ⟨"1", "Apple", ⟨(3 : ℚ)/2⟩, [⟨"food"⟩], true⟩ = true ↔
      (([⟨"food"⟩] : List Shop.Category) = [] ∨
        ∃ c ∈ ([⟨"food"⟩] : List Shop.Category),
          ∃ pc ∈ ([⟨"food"⟩] : List Shop.Category), pc.value = c.value) ∧
      (∀ m, (some ⟨1⟩ : Option Shop.Price) = some m → m.value ≤ (3 : ℚ)/2) ∧
      (∀ m, (some ⟨2⟩ : Option Shop.Price) = some m → (3 : ℚ)/2 ≤ m.value) ∧
      (∀ b, (some true : Option Bool) = some b → true = b)) :=
  c1_matches_characterization [⟨"food"⟩] (some ⟨1⟩) (some ⟨2⟩) (some true)
    ⟨[⟨"food"⟩], some ⟨1⟩, some ⟨2⟩, some true⟩
    ⟨"1", "Apple", ⟨(3 : ℚ)/2⟩, [⟨"food"⟩], true⟩
    (by simp [Shop.ProductFilter.create, Shop.Price.greaterThan])

/-- C7: Price construction succeeds exactly on finite non-negative numbers and
round-trips the value; null/NaN/infinite inputs fail with the invalid-value
error, negative finite numbers with the distinct negative-value error. -/
theorem c7_price_construction :
    (∀ q : ℚ, 0 ≤ q → Shop.Price.create (some (.finite q)) = Except.ok ⟨q⟩) ∧
    (∀ q : ℚ, q < 0 →
      Shop.Price.create (some (.finite q)) = Except.error Shop.PriceError.negativeValue) ∧
    Shop.Price.create none = Except.error Shop.PriceError.invalidValue ∧
    Shop.Price.create (some .nan) = Except.error Shop.PriceError.invalidValue ∧
    Shop.Price.create (some .posInf) = Except.error Shop.PriceError.invalidValue ∧
    Shop.Price.create (some .negInf) = Except.error Shop.PriceError.invalidValue := by
  refine ⟨?_, ?_, rfl, rfl, rfl, rfl⟩
  · intro q hq
    simp [Shop.Price.create, not_lt.mpr hq]
  · intro q hq
    simp [Shop.Price.create, hq]

/-- Witness for C7 at the concrete inputs 5 and -3. -/
theorem c7_price_construction_witness :
    Shop.Price.create (some (.finite 5)) = Except.ok ⟨5⟩ ∧
    Shop.Price.create (some (.finite (-3))) = Except.error Shop.PriceError.negativeValue :=
  ⟨c7_price_construction.1 5 (by norm_num), c7_price_construction.2.1 (-3) (by norm_num)⟩

namespace Shop

lemma valid_category_not_blank :
    ∀ s ∈ Shop.validCategories, ¬(s = "" ∨ Shop.jsTrim s = "") := by
  intro s hs
  simp only [validCategories, List.mem_cons, List.mem_singleton, List.not_mem_nil,
    or_false] at hs
  rcases hs with h | h | h | h | h | h | h <;> subst h <;> decide

end Shop

/-- C8: Category construction succeeds (and round-trips the stored value)
exactly on the seven vocabulary tokens; blank input fails with the distinct
empty-category error, any other string with the invalid-category error;
`isValid` is the total predicate that is true exactly on the seven tokens and
false on blank or absent input. -/
theorem c8_category_vocabulary :
    (∀ s : String, Shop.Category.create s = Except.ok ⟨s⟩ ↔ s ∈ Shop.validCategories) ∧
    (∀ s : String, ∀ c : Shop.Category, Shop.Category.create s = Except.ok c → c.value = s) ∧
    (∀ s : String, Shop.Category.isValid (some s) = true ↔ s ∈ Shop.validCategories) ∧
    Shop.Category.isValid none = false ∧
    (∀ s : String, s = "" ∨ Shop.jsTrim s = "" →
      Shop.Category.create s = Except.error Shop.CategoryError.empty) ∧
    (∀ s : String, s ∉ Shop.validCategories → ¬(s = "" ∨ Shop.jsTrim s = "") →
      Shop.Category.create s = Except.error Shop.CategoryError.invalid) := by
  have hvalid : ∀ s : String,
      Shop.Category.isValid (some s) = true ↔ s ∈ Shop.validCategories := by
    intro s
    constructor
    · intro h
      simp only [Shop.Category.isValid] at h
      split at h
      · cases h
      · exact List.elem_iff.mp h
    · intro hmem
      simp only [Shop.Category.isValid]
      split
      · next hcond =>
        exact absurd (by simpa using hcond) (Shop.valid_category_not_blank s hmem)
      · exact List.elem_iff.mpr hmem
  have hblank : ∀ s : String, s = "" ∨ Shop.jsTrim s = "" →
      Shop.Category.create s = Except.error Shop.CategoryError.empty := by
    intro s hb
    simp only [Shop.Category.create]
    split
    · rfl
    · next hcond => exact absurd hb (by simpa using hcond)
  refine ⟨?_, ?_, hvalid, rfl, hblank, ?_⟩
  · intro s
    constructor
    · intro h
      simp only [Shop.Category.create] at h
      split at h
      · cases h
      · split at h
        · next hv => exact (hvalid s).mp hv
        · cases h
    · intro hmem
      have hb := Shop.valid_category_not_blank s hmem
      unfold Shop.Category.create
      split
      · next hcond => exact absurd (by simpa using hcond) hb
      · split
        · rfl
        · next hv => exact absurd ((hvalid s).mpr hmem) hv
  · intro s c h
    simp only [Shop.Category.create] at h
    split at h
    · cases h
    · split at h
      · cases h
        rfl
      · cases h
  · intro s hmem hb
    simp only [Shop.Category.create]
    split
    · next hcond => exact absurd (by simpa using hcond) hb
    · split
      · next hv => exact absurd ((hvalid s).mp hv) hmem
      · rfl

/-- Witness for C8 at the concrete inputs "food", " " and "books". -/
theorem c8_category_vocabulary_witness :
    Shop.Category.create "food" = Except.ok ⟨"food"⟩ ∧
    Shop.Category.create " " = Except.error Shop.CategoryError.empty ∧
    Shop.Category.create "books" = Except.error Shop.CategoryError.invalid :=
  ⟨(c8_category_vocabulary.1 "food").mpr (by decide),
   c8_category_vocabulary.2.2.2.2.1 " " (Or.inr (by decide)),
   c8_category_vocabulary.2.2.2.2.2 "books" (by decide) (by decide)⟩

/-- C9 counterexample: the flat `Product` constructor (part_001 lines 308-315)
performs no validation, so constructing a product with an empty id, empty
name and empty category list succeeds instead of failing. -/
theorem c9_flat_product_no_validation :
    Shop.Flat.Product.createE "" "" 0 [] true = Except.ok ⟨"", "", 0, [], true⟩ := rfl

/-- C9 (amended): the layered `Product` entity constructor fails with the
distinct invalid-value errors for blank id, blank name and empty category
list, checked in exactly that order (the first violated check wins), and
succeeds whenever all three invariants hold.  The flat `Product` constructor
performs no validation and always succeeds. -/
theorem c9_product_invariants :
    (∀ (id nm : String) (price : Shop.Price) (cats : List Shop.Category) (st : Bool),
      (id = "" ∨ Shop.jsTrim id = "") →
      Shop.Product.create id nm price cats st = Except.error Shop.ProductError.emptyId) ∧
    (∀ (id nm : String) (price : Shop.Price) (cats : List Shop.Category) (st : Bool),
      ¬(id = "" ∨ Shop.jsTrim id = "") → (nm = "" ∨ Shop.jsTrim nm = "") →
      Shop.Product.create id nm price cats st = Except.error Shop.ProductError.emptyName) ∧
    (∀ (id nm : String) (price : Shop.Price) (st : Bool),
      ¬(id = "" ∨ Shop.jsTrim id = "") → ¬(nm = "" ∨ Shop.jsTrim nm = "") →
      Shop.Product.create id nm price [] st = Except.error Shop.ProductError.noCategories) ∧
    (∀ (id nm : String) (price : Shop.Price) (cats : List Shop.Category) (st : Bool),
      ¬(id = "" ∨ Shop.jsTrim id = "") → ¬(nm = "" ∨ Shop.jsTrim nm = "") → cats ≠ [] →
      Shop.Product.create id nm price cats st = Except.ok ⟨id, nm, price, cats, st⟩) ∧
    (∀ (id nm : String) (price : ℚ) (cats : List String) (st : Bool),
      Shop.Flat.Product.createE id nm price cats st = Except.ok ⟨id, nm, price, cats, st⟩) := by
  refine ⟨?_, ?_, ?_, ?_, fun id nm price cats st => rfl⟩
  · intro id nm price cats st hid
    simp only [Shop.Product.create]
    split
    · rfl
    · next hcond => exact absurd hid (by simpa using hcond)
  · intro id nm price cats st hid hnm
    simp only [Shop.Product.create]
    split
    · next hcond => exact absurd (by simpa using hcond) hid
    · split
      · rfl
      · next hcond => exact absurd hnm (by simpa using hcond)
  · intro id nm price st hid hnm
    simp only [Shop.Product.create]
    split
    · next hcond => exact absurd (by simpa using hcond) hid
    · split
      · next hcond => exact absurd (by simpa using hcond) hnm
      · simp
  · intro id nm price cats st hid hnm hcats
    simp only [Shop.Product.create]
    split
    · next hcond => exact absurd (by simpa using hcond) hid
    · split
      · next hcond => exact absurd (by simpa using hcond) hnm
      · split
        · next hcond => exact absurd (List.isEmpty_iff.mp hcond) hcats
        · rfl

/-- Witness for C9 at concrete inputs exercising all four layered branches. -/
theorem c9_product_invariants_witness :
    Shop.Product.create "" " " ⟨1⟩ [] true = Except.error Shop.ProductError.emptyId ∧
    Shop.Product.create "1" " " ⟨1⟩ [] true = Except.error Shop.ProductError.emptyName ∧
    Shop.Product.create "1" "Apple" ⟨1⟩ [] true = Except.error Shop.ProductError.noCategories ∧
    Shop.Product.create "1" "Apple" ⟨1⟩ [⟨"food"⟩] true =
      Except.ok ⟨"1", "Apple", ⟨1⟩, [⟨"food"⟩], true⟩ :=
  ⟨c9_product_invariants.1 "" " " ⟨1⟩ [] true (Or.inl rfl),
   c9_product_invariants.2.1 "1" " " ⟨1⟩ [] true (by decide) (Or.inr (by decide)),
   c9_product_invariants.2.2.1 "1" "Apple" ⟨1⟩ true (by decide) (by decide),
   c9_product_invariants.2.2.2.1 "1" "Apple" ⟨1⟩ [⟨"food"⟩] true (by decide) (by decide)
     (by decide)⟩

/-- C3 counterexample: the flat `ProductFilter` constructor (part_001 lines
165-182) performs no min/max validation, so construction with
minPrice = 5 > maxPrice = 1 succeeds (and yields a filter that simply never
matches on the price dimension) instead of failing with `InvalidRange`. -/
theorem c3_flat_no_range_check :
    Shop.Flat.ProductFilter.createE [] (some 5) (some 1) none =
      Except.ok (Shop.Flat.ProductFilter.create [] (some 5) (some 1) none) ∧
    (Shop.Flat.ProductFilter.create [] (some 5) (some 1) none).matches
      ⟨"1", "Apple", 3, ["food"], true⟩ = false :=
  ⟨rfl, by decide⟩

/-- C3 (amended): for the Category/Price-typed `ProductFilter` constructors
(the criteria variant and the layered variant), construction — directly or
through the builder's `build()` — fails with `InvalidRange` exactly when both
bounds are present and min > max; equal bounds and at-most-one-bound
configurations always succeed.  The flat string/number variant performs no
range validation and always succeeds. -/
theorem c3_invalid_range :
    (∀ (cs : List Shop.Category) (mn mx : Option Shop.Price) (st : Option Bool),
      Shop.ProductFilter.create cs mn mx st = Except.error Shop.FilterError.invalidRange ↔
        ∃ m M, mn = some m ∧ mx = some M ∧ M.value < m.value) ∧
    (∀ (cs : List Shop.Category) (m : Shop.Price) (st : Option Bool),
      Shop.ProductFilter.create cs (some m) (some m) st =
        Except.ok ⟨cs, some m, some m, st⟩) ∧
    (∀ (cs : List Shop.Category) (mx : Option Shop.Price) (st : Option Bool),
      Shop.ProductFilter.create cs none mx st = Except.ok ⟨cs, none, mx, st⟩) ∧
    (∀ (cs : List Shop.Category) (mn : Option Shop.Price) (st : Option Bool),
      Shop.ProductFilter.create cs mn none st = Except.ok ⟨cs, mn, none, st⟩) ∧
    (∀ b : Shop.ProductFilterBuilder,
      b.build = Shop.ProductFilter.create b.categories b.minPrice b.maxPrice b.hasStock) ∧
    (∀ (cs : List Shop.Category) (mn mx : Option Shop.Price),
      Shop.Simple.ProductFilter.create cs mn mx = Except.error Shop.FilterError.invalidRange ↔
        ∃ m M, mn = some m ∧ mx = some M ∧ M.value < m.value) ∧
    (∀ b : Shop.Simple.ProductFilterBuilder,
      b.build = Shop.Simple.ProductFilter.create b.categories b.minPrice b.maxPrice) ∧
    (∀ (cs : List String) (mn mx : Option ℚ) (st : Option Bool),
      Shop.Flat.ProductFilter.createE cs mn mx st =
        Except.ok (Shop.Flat.ProductFilter.create cs mn mx st)) := by
  refine ⟨?_, ?_, ?_, ?_, fun b => rfl, ?_, fun b => rfl, fun cs mn mx st => rfl⟩
  · intro cs mn mx st
    cases mn with
    | none => simp [Shop.ProductFilter.create]
    | some m =>
      cases mx with
      | none => simp [Shop.ProductFilter.create]
      | some M =>
        by_cases hlt : M.value < m.value
        · simp [Shop.ProductFilter.create, Shop.Price.greaterThan, hlt]
        · simp [Shop.ProductFilter.create, Shop.Price.greaterThan, hlt]
  · intro cs m st
    simp [Shop.ProductFilter.create, Shop.Price.greaterThan]
  · intro cs mx st
    cases mx <;> simp [Shop.ProductFilter.create]
  · intro cs mn st
    cases mn <;> simp [Shop.ProductFilter.create]
  · intro cs mn mx
    cases mn with
    | none => simp [Shop.Simple.ProductFilter.create]
    | some m =>
      cases mx with
      | none => simp [Shop.Simple.ProductFilter.create]
      | some M =>
        by_cases hlt : M.value < m.value
        · simp [Shop.Simple.ProductFilter.create, Shop.Price.greaterThan, hlt]
        · simp [Shop.Simple.ProductFilter.create, Shop.Price.greaterThan, hlt]

/-- C5: a filter is empty exactly when no dimension carries a constraint
(this holds for the criteria variant, which tests its stored fields, and for
the flat variant, which tests its derived criteria list), and an empty filter
matches every product; in particular the all-absent construction is empty. -/
theorem c5_empty_filter :
    (∀ (cs : List Shop.Category) (mn mx : Option Shop.Price) (st : Option Bool)
        (f : Shop.ProductFilter),
      Shop.ProductFilter.create cs mn mx st = Except.ok f →
      (f.isEmpty = true ↔ cs = [] ∧ mn = none ∧ mx = none ∧ st = none)) ∧
    (∀ f : Shop.ProductFilter, f.isEmpty = true → ∀ p, f.matches p = true) ∧
    (Shop.ProductFilter.create [] none none none = Except.ok ⟨[], none, none, none⟩ ∧
      (⟨[], none, none, none⟩ : Shop.ProductFilter).isEmpty = true) ∧
    (∀ (cs : List String) (mn mx : Option ℚ) (st : Option Bool),
      ((Shop.Flat.ProductFilter.create cs mn mx st).isEmpty = true ↔
        cs = [] ∧ mn = none ∧ mx = none ∧ st = none)) ∧
    (∀ f : Shop.Flat.ProductFilter, f.isEmpty = true → ∀ p, f.matches p = true) := by
  refine ⟨?_, ?_, ⟨rfl, rfl⟩, ?_, ?_⟩
  · intro cs mn mx st f h
    rw [Shop.productFilter_create_ok h]
    simp only [Shop.ProductFilter.isEmpty, Bool.and_eq_true, List.isEmpty_iff,
      Option.isNone_iff_eq_none]
    tauto
  · intro f h p
    obtain ⟨cs, mn, mx, st⟩ := f
    simp only [Shop.ProductFilter.isEmpty, Bool.and_eq_true, List.isEmpty_iff,
      Option.isNone_iff_eq_none] at h
    obtain ⟨⟨⟨h1, h2⟩, h3⟩, h4⟩ := h
    subst h1 h2 h3 h4
    rfl
  · intro cs mn mx st
    cases cs <;> cases mn <;> cases mx <;> cases st <;>
      simp [Shop.Flat.ProductFilter.create, Shop.Flat.ProductFilter.isEmpty]
  · intro f h p
    obtain ⟨criteria⟩ := f
    simp only [Shop.Flat.ProductFilter.isEmpty, List.isEmpty_iff] at h
    subst h
    rfl

/-- Witness for C5 at the all-absent filter and a concrete product. -/
theorem c5_empty_filter_witness :
    ((⟨[], none, none, none⟩ : Shop.ProductFilter).isEmpty = true ↔
      ([] : List Shop.Category) = [] ∧ (none : Option Shop.Price) = none ∧
      (none : Option Shop.Price) = none ∧ (none : Option Bool) = none) ∧
    (⟨[], none, none, none⟩ : Shop.ProductFilter).matches
      ⟨"1", "Apple", ⟨1⟩, [⟨"food"⟩], true⟩ = true ∧
    (⟨[]⟩ : Shop.Flat.ProductFilter).matches ⟨"1", "Apple", 1, ["food"], false⟩ = true :=
  ⟨c5_empty_filter.1 [] none none none ⟨[], none, none, none⟩ rfl,
   c5_empty_filter.2.1 ⟨[], none, none, none⟩ rfl ⟨"1", "Apple", ⟨1⟩, [⟨"food"⟩], true⟩,
   c5_empty_filter.2.2.2.2 ⟨[]⟩ rfl ⟨"1", "Apple", 1, ["food"], false⟩⟩

namespace Shop

lemma filter_filter_self (f : α → Bool) (l : List α) :
    (l.filter f).filter f = l.filter f := by
  induction l with
  | nil => rfl
  | cons x xs ih =>
    by_cases hx : f x = true
    · simp [List.filter_cons, hx, ih]
    · simp [List.filter_cons, hx, ih]

lemma filter_filter_neg (f : α → Bool) (l : List α) :
    (l.filter f).filter (fun a => !f a) = [] := by
  induction l with
  | nil => rfl
  | cons x xs ih =>
    by_cases hx : f x = true
    · simp [List.filter_cons, hx, ih]
    · simp [List.filter_cons, hx, ih]

lemma filter_neg_filter (f : α → Bool) (l : List α) :
    (l.filter (fun a => !f a)).filter f = [] := by
  induction l with
  | nil => rfl
  | cons x xs ih =>
    by_cases hx : f x = true
    · simp [List.filter_cons, hx, ih]
    · simp [List.filter_cons, hx, ih]

lemma jsSortInsert_stock (x : Product) (A B : List Product)
    (hA : ∀ a ∈ A, a.hasStock = true) (hB : ∀ b ∈ B, b.hasStock = false) :
    jsSortInsert stockCompare x (A ++ B) =
      if x.hasStock then x :: (A ++ B) else A ++ x :: B := by
  induction A with
  | nil =>
    cases B with
    | nil => cases hx : x.hasStock <;> simp [jsSortInsert]
    | cons b B =>
      have hb : b.hasStock = false := hB b (List.mem_cons_self b B)
      cases hx : x.hasStock <;> simp [jsSortInsert, stockCompare, hx, hb]
  | cons a A ih =>
    have ha : a.hasStock = true := hA a (List.mem_cons_self a A)
    have ih' := ih (fun a' h => hA a' (List.mem_cons_of_mem a h))
    cases hx : x.hasStock with
    | true => simp [jsSortInsert, stockCompare, hx, ha]
    | false =>
      have hcmp : stockCompare x a = 1 := by simp [stockCompare, hx, ha]
      have hle : ¬((1 : Int) ≤ 0) := by norm_num
      rw [List.cons_append]
      show (if stockCompare x a ≤ 0 then x :: a :: (A ++ B)
            else a :: jsSortInsert stockCompare x (A ++ B)) = _
      rw [hcmp, if_neg hle, ih']
      simp [hx]

lemma sortByStock_partition (l : List Product) :
    ProductFilterService.sortByStock l =
      l.filter (fun p => p.hasStock) ++ l.filter (fun p => !p.hasStock) := by
  induction l with
  | nil => rfl
  | cons x xs ih =>
    have hA : ∀ a ∈ xs.filter (fun p => p.hasStock), a.hasStock = true := by
      intro a ha
      simpa using List.of_mem_filter ha
    have hB : ∀ b ∈ xs.filter (fun p => !p.hasStock), b.hasStock = false := by
      intro b hb
      simpa using List.of_mem_filter hb
    show jsSortInsert stockCompare x (ProductFilterService.sortByStock xs) = _
    rw [ih, jsSortInsert_stock x _ _ hA hB]
    cases hx : x.hasStock <;> simp [List.filter_cons, hx]

end Shop

/-- C4: the stock-priority ordering preserves each stock group's relative
input order (stable partition), is idempotent, and places every in-stock
product before every out-of-stock product. -/
theorem c4_sort_by_stock (l : List Shop.Product) :
    ((Shop.ProductFilterService.sortByStock l).filter (fun p => p.hasStock) =
      l.filter (fun p => p.hasStock)) ∧
    ((Shop.ProductFilterService.sortByStock l).filter (fun p => !p.hasStock) =
      l.filter (fun p => !p.hasStock)) ∧
    (Shop.ProductFilterService.sortByStock (Shop.ProductFilterService.sortByStock l) =
      Shop.ProductFilterService.sortByStock l) ∧
    (∃ A B, Shop.ProductFilterService.sortByStock l = A ++ B ∧
      (∀ a ∈ A, a.hasStock = true) ∧ (∀ b ∈ B, b.hasStock = false)) := by
  refine ⟨?_, ?_, ?_, ?_⟩
  · rw [Shop.sortByStock_partition, List.filter_append, Shop.filter_filter_self,
      Shop.filter_neg_filter, List.append_nil]
  · rw [Shop.sortByStock_partition, List.filter_append, Shop.filter_filter_neg,
      Shop.filter_filter_self, List.nil_append]
  · rw [Shop.sortByStock_partition l, Shop.sortByStock_partition
      (l.filter (fun p => p.hasStock) ++ l.filter (fun p => !p.hasStock)),
      List.filter_append, List.filter_append, Shop.filter_filter_self,
      Shop.filter_neg_filter, Shop.filter_filter_neg, Shop.filter_filter_self,
      List.append_nil, List.nil_append]
  · refine ⟨l.filter (fun p => p.hasStock), l.filter (fun p => !p.hasStock),
      Shop.sortByStock_partition l, ?_, ?_⟩
    · intro a ha
      simpa using List.of_mem_filter ha
    · intro b hb
      simpa using List.of_mem_filter hb

namespace Shop

lemma any_matchesCategory_comm (c0 : Category) (cs' : List Category) (mn mx : Option Price)
    (st : Option Bool) (p : Product) :
    (p.categories.any fun category =>
      ProductFilter.matchesCategory ⟨c0 :: cs', mn, mx, st⟩ category) =
      ((c0 :: cs').any fun category => p.belongsToCategory category) := by
  rw [Bool.eq_iff_iff]
  simp [ProductFilter.matchesCategory, ProductFilter.hasCategoryFilter,
    Product.belongsToCategory, Category.equalsCat, List.any_eq_true]
  constructor
  · rintro ⟨pc, hpc, h | ⟨c, hc, h⟩⟩
    · exact Or.inl ⟨pc, hpc, h.symm⟩
    · exact Or.inr ⟨c, hc, pc, hpc, h.symm⟩
  · rintro (⟨pc, hpc, h⟩ | ⟨c, hc, pc, hpc, h⟩)
    · exact ⟨pc, hpc, Or.inl h.symm⟩
    · exact ⟨pc, hpc, Or.inr ⟨c, hc, h.symm⟩⟩

lemma matchesPrice_eq_inRange (cs : List Category) (mn mx : Option Price) (st : Option Bool)
    (p : Product) :
    ProductFilter.matchesPrice ⟨cs, mn, mx, st⟩ p.price = p.isInPriceRange mn mx := by
  cases mn with
  | none =>
    cases mx with
    | none => rfl
    | some M =>
      cases hG : p.price.greaterThan M <;>
        simp [ProductFilter.matchesPrice, ProductFilter.hasPriceFilter, Product.isInPriceRange,
          Option.any, Option.all, hG]
  | some m =>
    cases mx with
    | none =>
      cases hL : p.price.lessThan m <;>
        simp [ProductFilter.matchesPrice, ProductFilter.hasPriceFilter, Product.isInPriceRange,
          Option.any, Option.all, hL]
    | some M =>
      cases hL : p.price.lessThan m <;> cases hG : p.price.greaterThan M <;>
        simp [ProductFilter.matchesPrice, ProductFilter.hasPriceFilter, Product.isInPriceRange,
          Option.any, Option.all, hL, hG]

lemma keepsProduct_eq_matches (cs : List Category) (mn mx : Option Price) (p : Product) :
    InMemoryProductRepository.keepsProduct ⟨cs, mn, mx, none⟩ p =
      ProductFilter.matches ⟨cs, mn, mx, none⟩ p := by
  cases cs with
  | nil =>
    simp only [InMemoryProductRepository.keepsProduct]
    rw [matchesPrice_eq_inRange]
    cases hR : p.isInPriceRange mn mx <;>
      cases mn <;> cases mx <;>
        simp [ProductFilter.hasCategoryFilter, ProductFilter.hasPriceFilter,
          ProductFilter.matches, ProductFilter.buildCriteria, FilterCriterion.matches, hR]
  | cons c0 cs' =>
    simp only [InMemoryProductRepository.keepsProduct]
    rw [any_matchesCategory_comm, matchesPrice_eq_inRange]
    cases hA : ((c0 :: cs').any fun category => p.belongsToCategory category) <;>
      cases hR : p.isInPriceRange mn mx <;>
        cases mn <;> cases mx <;>
          simp [ProductFilter.hasCategoryFilter, ProductFilter.hasPriceFilter,
            ProductFilter.matches, ProductFilter.buildCriteria, FilterCriterion.matches, hA, hR]

end Shop

/-- C2 counterexample: `findByFilter` never consults the stock dimension, so
for a successfully constructed filter carrying only a stock constraint and a
single out-of-stock product, the repository returns the product while
filtering by the unified `matches` predicate rejects it. -/
theorem c2_stock_constraint_counterexample :
    Shop.ProductFilter.create [] none none (some true) =
      Except.ok ⟨[], none, none, some true⟩ ∧
    Shop.InMemoryProductRepository.findByFilter
        [⟨"2", "Banana", ⟨2⟩, [⟨"food"⟩], false⟩] ⟨[], none, none, some true⟩ =
      [⟨"2", "Banana", ⟨2⟩, [⟨"food"⟩], false⟩] ∧
    List.filter (fun p => (⟨[], none, none, some true⟩ : Shop.ProductFilter).matches p)
        [⟨"2", "Banana", ⟨2⟩, [⟨"food"⟩], false⟩] = [] :=
  ⟨rfl, rfl, rfl⟩

/-- C2 (amended): for every stored product list and every filter carrying no
stock constraint, `findByFilter` returns exactly the products satisfying the
unified `matches` predicate, in the stored relative order, and the service's
`filterProducts` therefore returns those products in stock-priority order;
a stock constraint, however, is ignored by `findByFilter`. -/
theorem c2_findByFilter_refines_matches (products : List Shop.Product)
    (f : Shop.ProductFilter) (h : f.hasStock = none) :
    Shop.InMemoryProductRepository.findByFilter products f =
      products.filter (fun p => f.matches p) ∧
    Shop.ProductFilterService.filterProducts products f =
      Shop.ProductFilterService.sortByStock (products.filter (fun p => f.matches p)) := by
  obtain ⟨cs, mn, mx, st⟩ := f
  have hst : st = none := h
  subst hst
  constructor
  · simp only [Shop.InMemoryProductRepository.findByFilter, Shop.keepsProduct_eq_matches]
  · simp only [Shop.ProductFilterService.filterProducts,
      Shop.InMemoryProductRepository.findByFilter, Shop.keepsProduct_eq_matches]

/-- Witness for C2 at a concrete one-product list and category-only filter. -/
theorem c2_findByFilter_refines_matches_witness :
    Shop.InMemoryProductRepository.findByFilter
        [⟨"1", "Apple", ⟨1⟩, [⟨"food"⟩], true⟩] ⟨[⟨"food"⟩], none, none, none⟩ =
      List.filter (fun p => (⟨[⟨"food"⟩], none, none, none⟩ : Shop.ProductFilter).matches p)
        [⟨"1", "Apple", ⟨1⟩, [⟨"food"⟩], true⟩] ∧
    Shop.ProductFilterService.filterProducts
        [⟨"1", "Apple", ⟨1⟩, [⟨"food"⟩], true⟩] ⟨[⟨"food"⟩], none, none, none⟩ =
      Shop.ProductFilterService.sortByStock
        (List.filter (fun p => (⟨[⟨"food"⟩], none, none, none⟩ : Shop.ProductFilter).matches p)
          [⟨"1", "Apple", ⟨1⟩, [⟨"food"⟩], true⟩]) :=
  c2_findByFilter_refines_matches [⟨"1", "Apple", ⟨1⟩, [⟨"food"⟩], true⟩]
    ⟨[⟨"food"⟩], none, none, none⟩ rfl

namespace Shop.Flat

lemma runCalls_cons (b : ProductFilterBuilder) (c : BuilderCall) (cs : List BuilderCall) :
    b.runCalls (c :: cs) = (b.applyCall c).runCalls cs := rfl

lemma runCalls_append (b : ProductFilterBuilder) (l1 l2 : List BuilderCall) :
    b.runCalls (l1 ++ l2) = (b.runCalls l1).runCalls l2 := by
  simp [ProductFilterBuilder.runCalls, List.foldl_append]

lemma runCalls_minPrice_frozen (calls : List BuilderCall) :
    ∀ b : ProductFilterBuilder, (∀ c ∈ calls, c.setsMin = false) →
      (b.runCalls calls).minPrice = b.minPrice := by
  induction calls with
  | nil => intro b _; rfl
  | cons c cs ih =>
    intro b h
    rw [runCalls_cons, ih (b.applyCall c) (fun c' h' => h c' (List.mem_cons_of_mem c h'))]
    have hc := h c (List.mem_cons_self c cs)
    cases c with
    | withCategories l => rfl
    | withCategory x => rfl
    | withMinPrice q => simp [BuilderCall.setsMin] at hc
    | withMaxPrice q => rfl
    | withPriceRange q1 q2 => simp [BuilderCall.setsMin] at hc
    | withStockFilter s => rfl
    | withInStockOnly => rfl
    | withOutOfStockOnly => rfl

lemma runCalls_maxPrice_frozen (calls : List BuilderCall) :
    ∀ b : ProductFilterBuilder, (∀ c ∈ calls, c.setsMax = false) →
      (b.runCalls calls).maxPrice = b.maxPrice := by
  induction calls with
  | nil => intro b _; rfl
  | cons c cs ih =>
    intro b h
    rw [runCalls_cons, ih (b.applyCall c) (fun c' h' => h c' (List.mem_cons_of_mem c h'))]
    have hc := h c (List.mem_cons_self c cs)
    cases c with
    | withCategories l => rfl
    | withCategory x => rfl
    | withMinPrice q => rfl
    | withMaxPrice q => simp [BuilderCall.setsMax] at hc
    | withPriceRange q1 q2 => simp [BuilderCall.setsMax] at hc
    | withStockFilter s => rfl
    | withInStockOnly => rfl
    | withOutOfStockOnly => rfl

lemma runCalls_hasStock_frozen (calls : List BuilderCall) :
    ∀ b : ProductFilterBuilder, (∀ c ∈ calls, c.setsStock = false) →
      (b.runCalls calls).hasStock = b.hasStock := by
  induction calls with
  | nil => intro b _; rfl
  | cons c cs ih =>
    intro b h
    rw [runCalls_cons, ih (b.applyCall c) (fun c' h' => h c' (List.mem_cons_of_mem c h'))]
    have hc := h c (List.mem_cons_self c cs)
    cases c with
    | withCategories l => rfl
    | withCategory x => rfl
    | withMinPrice q => rfl
    | withMaxPrice q => rfl
    | withPriceRange q1 q2 => rfl
    | withStockFilter s => simp [BuilderCall.setsStock] at hc
    | withInStockOnly => simp [BuilderCall.setsStock] at hc
    | withOutOfStockOnly => simp [BuilderCall.setsStock] at hc

end Shop.Flat

/-- C6: the builder round-trips through the constructor — `build()` on the
final accumulated state behaves exactly like direct construction from the
final field values (same `matches` on every product; for the criteria
variant, `build` literally delegates to the fallible constructor, so the two
fail identically); each fluent call overwrites only its own field
(`withCategories` replaces the list, `withCategory` appends one entry), and
the last write per field wins regardless of the surrounding calls. -/
theorem c6_builder_roundtrip :
    (∀ (calls : List Shop.Flat.BuilderCall) (p : Shop.Flat.Product),
      ((Shop.Flat.ProductFilterBuilder.init.runCalls calls).build).matches p =
        (Shop.Flat.ProductFilter.create
          (Shop.Flat.ProductFilterBuilder.init.runCalls calls).categories
          (Shop.Flat.ProductFilterBuilder.init.runCalls calls).minPrice
          (Shop.Flat.ProductFilterBuilder.init.runCalls calls).maxPrice
          (Shop.Flat.ProductFilterBuilder.init.runCalls calls).hasStock).matches p) ∧
    (∀ (b : Shop.Flat.ProductFilterBuilder) (cs : List String),
      b.applyCall (.withCategories cs) = ⟨cs, b.minPrice, b.maxPrice, b.hasStock⟩) ∧
    (∀ (b : Shop.Flat.ProductFilterBuilder) (c : String),
      b.applyCall (.withCategory c) =
        ⟨b.categories ++ [c], b.minPrice, b.maxPrice, b.hasStock⟩) ∧
    (∀ (b : Shop.Flat.ProductFilterBuilder) (q : ℚ),
      b.applyCall (.withMinPrice q) = ⟨b.categories, some q, b.maxPrice, b.hasStock⟩) ∧
    (∀ (b : Shop.Flat.ProductFilterBuilder) (q : ℚ),
      b.applyCall (.withMaxPrice q) = ⟨b.categories, b.minPrice, some q, b.hasStock⟩) ∧
    (∀ (b : Shop.Flat.ProductFilterBuilder) (q1 q2 : ℚ),
      b.applyCall (.withPriceRange q1 q2) = ⟨b.categories, some q1, some q2, b.hasStock⟩) ∧
    (∀ (b : Shop.Flat.ProductFilterBuilder) (s : Bool),
      b.applyCall (.withStockFilter s) = ⟨b.categories, b.minPrice, b.maxPrice, some s⟩) ∧
    (∀ b : Shop.Flat.ProductFilterBuilder,
      b.applyCall .withInStockOnly = ⟨b.categories, b.minPrice, b.maxPrice, some true⟩ ∧
      b.applyCall .withOutOfStockOnly = ⟨b.categories, b.minPrice, b.maxPrice, some false⟩) ∧
    (∀ (b : Shop.Flat.ProductFilterBuilder) (l1 l2 : List Shop.Flat.BuilderCall) (q : ℚ),
      (∀ c ∈ l2, c.setsMin = false) →
      (b.runCalls (l1 ++ Shop.Flat.BuilderCall.withMinPrice q :: l2)).minPrice = some q) ∧
    (∀ (b : Shop.Flat.ProductFilterBuilder) (l1 l2 : List Shop.Flat.BuilderCall) (q : ℚ),
      (∀ c ∈ l2, c.setsMax = false) →
      (b.runCalls (l1 ++ Shop.Flat.BuilderCall.withMaxPrice q :: l2)).maxPrice = some q) ∧
    (∀ (b : Shop.Flat.ProductFilterBuilder) (l1 l2 : List Shop.Flat.BuilderCall) (s : Bool),
      (∀ c ∈ l2, c.setsStock = false) →
      (b.runCalls (l1 ++ Shop.Flat.BuilderCall.withStockFilter s :: l2)).hasStock = some s) ∧
    (∀ b : Shop.ProductFilterBuilder,
      b.build = Shop.ProductFilter.create b.categories b.minPrice b.maxPrice b.hasStock) := by
  refine ⟨fun calls p => rfl, fun b cs => rfl, fun b c => rfl, fun b q => rfl,
    fun b q => rfl, fun b q1 q2 => rfl, fun b s => rfl, fun b => ⟨rfl, rfl⟩,
    ?_, ?_, ?_, fun b => rfl⟩
  · intro b l1 l2 q h
    rw [Shop.Flat.runCalls_append, Shop.Flat.runCalls_cons,
      Shop.Flat.runCalls_minPrice_frozen l2 _ h]
    rfl
  · intro b l1 l2 q h
    rw [Shop.Flat.runCalls_append, Shop.Flat.runCalls_cons,
      Shop.Flat.runCalls_maxPrice_frozen l2 _ h]
    rfl
  · intro b l1 l2 s h
    rw [Shop.Flat.runCalls_append, Shop.Flat.runCalls_cons,
      Shop.Flat.runCalls_hasStock_frozen l2 _ h]
    rfl

/-- Witness for C6: a later `withMinPrice 5` overrides an earlier
`withMinPrice 1` across an intervening `withMaxPrice 7`. -/
theorem c6_builder_roundtrip_witness :
    (Shop.Flat.ProductFilterBuilder.init.runCalls
        ([Shop.Flat.BuilderCall.withMinPrice 1] ++
          Shop.Flat.BuilderCall.withMinPrice 5 ::
            [Shop.Flat.BuilderCall.withMaxPrice 7])).minPrice = some 5 :=
  c6_builder_roundtrip.2.2.2.2.2.2.2.2.1 Shop.Flat.ProductFilterBuilder.init
    [.withMinPrice 1] [.withMaxPrice 7] 5
    (by
      intro c hc
      rw [List.mem_singleton] at hc
      subst hc
      rfl)

namespace Shop

lemma set_self_of_getElem {α : Type} :
    ∀ (l : List α) (i : Nat) (hi : i < l.length) (a : α), l[i] = a → l.set i a = l := by
  intro l
  induction l with
  | nil =>
    intro i hi
    exact absurd hi (by simp)
  | cons x xs ih =>
    intro i hi a ha
    cases i with
    | zero =>
      subst ha
      rfl
    | succ j =>
      have hxs : xs.set j a = xs := ih j (Nat.lt_of_succ_lt_succ hi) a (by simpa using ha)
      show x :: xs.set j a = x :: xs
      rw [hxs]

end Shop

/-- C10: the repository's upsert replaces the first stored product with the
incoming id in place (same length, same order, all other entries untouched)
and otherwise appends; in particular pairwise-distinct ids are preserved. -/
theorem c10_save_upsert :
    (∀ (ps : List Shop.Product) (q : Shop.Product),
      (∀ p ∈ ps, p.id ≠ q.id) → Shop.InMemoryProductRepository.save ps q = ps ++ [q]) ∧
    (∀ (ps : List Shop.Product) (q : Shop.Product) (i : Nat) (hi : i < ps.length),
      ps[i].id = q.id → (∀ (j : Nat) (hj : j < ps.length), j < i → ps[j].id ≠ q.id) →
      Shop.InMemoryProductRepository.save ps q = ps.set i q ∧
      (Shop.InMemoryProductRepository.save ps q).length = ps.length ∧
      (Shop.InMemoryProductRepository.save ps q)[i]? = some q ∧
      (∀ j : Nat, j ≠ i → (Shop.InMemoryProductRepository.save ps q)[j]? = ps[j]?)) ∧
    (∀ (ps : List Shop.Product) (q : Shop.Product),
      (ps.map Shop.Product.id).Nodup →
      ((Shop.InMemoryProductRepository.save ps q).map Shop.Product.id).Nodup) := by
  refine ⟨?_, ?_, ?_⟩
  · intro ps q h
    have hnone : ps.findIdx? (fun p => p.id == q.id) = none :=
      List.findIdx?_eq_none_iff.mpr (fun x hx => by simpa using h x hx)
    simp [Shop.InMemoryProductRepository.save, hnone]
  · intro ps q i hi hpi hfirst
    have hsome : ps.findIdx? (fun p => p.id == q.id) = some i := by
      rw [List.findIdx?_eq_some_iff_getElem]
      refine ⟨hi, by simpa using hpi, ?_⟩
      intro j hji
      have hj : j < ps.length := Nat.lt_trans hji hi
      simpa using hfirst j hj hji
    have hsave : Shop.InMemoryProductRepository.save ps q = ps.set i q := by
      simp [Shop.InMemoryProductRepository.save, hsome]
    refine ⟨hsave, by rw [hsave, List.length_set], ?_, ?_⟩
    · rw [hsave, List.getElem?_set]
      simp [hi]
    · intro j hji
      rw [hsave, List.getElem?_set, if_neg (fun h => hji h.symm)]
  · intro ps q hnodup
    cases hfind : ps.findIdx? (fun p => p.id == q.id) with
    | none =>
      have hsave : Shop.InMemoryProductRepository.save ps q = ps ++ [q] := by
        simp [Shop.InMemoryProductRepository.save, hfind]
      have hnotin : q.id ∉ ps.map Shop.Product.id := by
        rw [List.mem_map]
        rintro ⟨x, hx, hxid⟩
        have hfalse := List.findIdx?_eq_none_iff.mp hfind x hx
        simp [hxid] at hfalse
      rw [hsave, List.map_append, List.nodup_append]
      refine ⟨hnodup, List.nodup_singleton _, ?_⟩
      intro a ha hb
      rw [List.map_singleton, List.mem_singleton] at hb
      subst hb
      exact hnotin ha
    | some i =>
      obtain ⟨hi, hp, -⟩ := List.findIdx?_eq_some_iff_getElem.mp hfind
      have hpid : ps[i].id = q.id := by simpa using hp
      have hsave : Shop.InMemoryProductRepository.save ps q = ps.set i q := by
        simp [Shop.InMemoryProductRepository.save, hfind]
      have hmap : (ps.map Shop.Product.id).set i q.id = ps.map Shop.Product.id := by
        refine Shop.set_self_of_getElem _ i (by simpa using hi) q.id ?_
        rw [List.getElem_map]
        exact hpid
      rw [hsave, List.map_set, hmap]
      exact hnodup

/-- Witness for C10: an append, an in-place replacement at index 1, and
id-distinctness preservation, on concrete two-product stores. -/
theorem c10_save_upsert_witness :
    Shop.InMemoryProductRepository.save [⟨"1", "A", ⟨1⟩, [⟨"food"⟩], true⟩]
        ⟨"2", "B2", ⟨3⟩, [⟨"clothes"⟩], true⟩ =
      [⟨"1", "A", ⟨1⟩, [⟨"food"⟩], true⟩, ⟨"2", "B2", ⟨3⟩, [⟨"clothes"⟩], true⟩] ∧
    Shop.InMemoryProductRepository.save
        [⟨"1", "A", ⟨1⟩, [⟨"food"⟩], true⟩, ⟨"2", "B", ⟨2⟩, [⟨"food"⟩], false⟩]
        ⟨"2", "B2", ⟨3⟩, [⟨"clothes"⟩], true⟩ =
      List.set [⟨"1", "A", ⟨1⟩, [⟨"food"⟩], true⟩, ⟨"2", "B", ⟨2⟩, [⟨"food"⟩], false⟩] 1
        ⟨"2", "B2", ⟨3⟩, [⟨"clothes"⟩], true⟩ ∧
    ((Shop.InMemoryProductRepository.save [⟨"1", "A", ⟨1⟩, [⟨"food"⟩], true⟩]
        ⟨"2", "B2", ⟨3⟩, [⟨"clothes"⟩], true⟩).map Shop.Product.id).Nodup :=
  ⟨c10_save_upsert.1 [⟨"1", "A", ⟨1⟩, [⟨"food"⟩], true⟩]
      ⟨"2", "B2", ⟨3⟩, [⟨"clothes"⟩], true⟩ (by decide),
   (c10_save_upsert.2.1
      [⟨"1", "A", ⟨1⟩, [⟨"food"⟩], true⟩, ⟨"2", "B", ⟨2⟩, [⟨"food"⟩], false⟩]
      ⟨"2", "B2", ⟨3⟩, [⟨"clothes"⟩], true⟩ 1 (by decide) (by decide)
      (by
        intro j hj hj1
        have hj0 : j = 0 := by omega
        subst hj0
        simp only [List.getElem_cons_zero]
        decide)).1,
   c10_save_upsert.2.2 [⟨"1", "A", ⟨1⟩, [⟨"food"⟩], true⟩]
      ⟨"2", "B2", ⟨3⟩, [⟨"clothes"⟩], true⟩ (by decide)⟩
